import Mathlib

/-!
Verification of the core of `frd_calculator.py`: the unit-conversion engine,
the density heuristic (`convert_mass_to_volume`, `check_special_cases`),
the cost apportionment loop (`calculate_recipe_prices`) and the report
(`print_recipe_costs`).  Real-valued quantities are modelled as rationals.
-/

namespace Frd

/-- Physical dimension of a unit (mass, volume, count), as distinguished by
the dimensionality comparisons in the source. -/
inductive Dim : Type
  | mass
  | volume
  | count
deriving DecidableEq, Repr

/-- Modelled from the spec: the unit table of the Conversion Engine (the
source delegates to the external `pint` library, which is not part of this
repository).  The spec's unit vocabulary (§6): mass (pounds, ounces, grams,
kilograms), volume (cups, tablespoons, teaspoons, liters), count (each).
Each unit maps to its dimension and its factor to a per-dimension base unit
(grams for mass, liters for volume, items for count). -/
def unitDef (u : String) : Option (Dim × ℚ) :=
  if u == "pounds" then some (Dim.mass, 45359237/100000)
  else if u == "ounces" then some (Dim.mass, 45359237/1600000)
  else if u == "grams" then some (Dim.mass, 1)
  else if u == "kilograms" then some (Dim.mass, 1000)
  else if u == "cups" then some (Dim.volume, 2365882365/10000000000)
  else if u == "tablespoons" then some (Dim.volume, 2365882365/160000000000)
  else if u == "teaspoons" then some (Dim.volume, 2365882365/480000000000)
  else if u == "liters" then some (Dim.volume, 1)
  else if u == "each" then some (Dim.count, 1)
  else none

/-- Dimension of a unit name, `none` when `pint` does not recognize it. -/
def unitDim (u : String) : Option Dim := (unitDef u).map Prod.fst

/-- Errors of the Conversion Engine: `pint` raises `UndefinedUnitError` for
an unrecognized unit name and `DimensionalityError` for a conversion across
dimensions; the source only catches the latter. -/
inductive ConvError : Type
  | undefinedUnit
  | dimMismatch
deriving DecidableEq, Repr

/-- Modelled from the spec: `convert(quantity, from_unit, to_unit)` of the
Conversion Engine (`pint`'s `Quantity.to`): scale through the common base
unit when the dimensions agree, otherwise fail. -/
def convert (q : ℚ) (fromU toU : String) : Except ConvError ℚ :=
  match unitDef fromU, unitDef toU with
  | some (d1, f1), some (d2, f2) =>
      if d1 = d2 then Except.ok (q * f1 / f2)
      else Except.error ConvError.dimMismatch
  | _, _ => Except.error ConvError.undefinedUnit

/-- `Cost` of `frd_calculator.py`: money paid, bulk quantity and its unit. -/
structure Cost : Type where
  money : ℚ
  quantity : ℚ
  measure : String
deriving DecidableEq, Repr

/-- `Ingredient` of `frd_calculator.py` in the state reached after
`add_costs`, which the apportionment pipeline operates on: usage quantity,
usage unit, name, the attached bulk `Cost`, and the optional computed
price (`None` until apportionment succeeds). -/
structure Ingredient : Type where
  quantity : ℚ
  measure : String
  thing : String
  cost : Cost
  price : Option ℚ
deriving DecidableEq, Repr

/-- The first list of characters starts the second one. -/
def startsWithL : List Char → List Char → Bool
  | [], _ => true
  | _ :: _, [] => false
  | a :: as, b :: bs => a == b && startsWithL as bs

/-- The first list of characters occurs contiguously inside the second. -/
def containsL (needle : List Char) : List Char → Bool
  | [] => startsWithL needle []
  | c :: t => startsWithL needle (c :: t) || containsL needle t

/-- Python's substring test `needle in hay` on strings. -/
def strContainsSub (hay needle : String) : Bool :=
  containsL needle.data hay.data

/-- Python's default whitespace set for `str.strip()`. -/
def isPySpace (c : Char) : Bool :=
  c == ' ' || c == '\t' || c == '\n' || c == '\r' || c == '\x0b' || c == '\x0c'

/-- Drop leading whitespace characters. -/
def dropSpaces : List Char → List Char
  | [] => []
  | c :: t => if isPySpace c then dropSpaces t else c :: t

/-- Python's `str.strip()` on a character list: drop leading and trailing
whitespace. -/
def stripL (cs : List Char) : List Char :=
  (dropSpaces (dropSpaces cs).reverse).reverse

/-- The name normalization `item.thing.lower().strip()` performed by
`check_special_cases` before matching the density rules. -/
def normalize_name (s : String) : String :=
  String.mk (stripL (s.data.map Char.toLower))

/-- The density-rate selection of `check_special_cases` (lines 128-140):
default 2.0 lb/cup, overridden by the first matching rule of the ordered
chain flour / butter / brown sugar / sugar / cocoa. -/
def lookup_rate (name : String) : ℚ :=
  let comparison_name := normalize_name name
  if strContainsSub comparison_name "flour" then 333/100
  else if comparison_name == "butter" then 2
  else if strContainsSub comparison_name "brown sugar" then 225/100
  else if strContainsSub comparison_name "sugar" then 2
  else if strContainsSub comparison_name "cocoa" then 355/100
  else 2

/-- `convert_mass_to_volume(cost, rate)` (lines 102-115): re-express the
bulk quantity in pounds, multiply by the rate (cups per pound), and rewrite
the cost in cups in place.  `none` models the uncaught `pint` exception
when the cost's unit cannot be converted to pounds. -/
def convert_mass_to_volume (cost : Cost) (rate : ℚ) : Option Cost :=
  match convert cost.quantity cost.measure "pounds" with
  | Except.ok qty_in_pounds =>
      some { cost with quantity := qty_in_pounds * rate, measure := "cups" }
  | Except.error _ => none

/-- `check_special_cases(item)` (lines 117-144): when the cost's unit has
mass dimensionality and the ingredient's usage unit does not, look up the
density rate for the ingredient's name and rewrite the cost in cups;
otherwise return the ingredient unchanged.  `none` models an uncaught
`UndefinedUnitError` from the dimensionality checks (the left operand of
the `and` is evaluated first, the right one only when the left is true). -/
def check_special_cases (item : Ingredient) : Option Ingredient :=
  match unitDim item.cost.measure with
  | none => none
  | some dc =>
    if dc = Dim.mass then
      match unitDim item.measure with
      | none => none
      | some di =>
        if di = Dim.mass then some item
        else
          match convert_mass_to_volume item.cost (lookup_rate item.thing) with
          | some c => some { item with cost := c }
          | none => none
    else some item

/-- The per-ingredient body of the loop of `calculate_recipe_prices`
(lines 149-158): apply the density heuristic, convert the bulk quantity to
the usage unit, and on success set
`price = (quantity / smaller.magnitude) * cost.money`.  A
`DimensionalityError` is caught (`continue`: the ingredient keeps its
heuristic-rewritten cost and its unset price); an `UndefinedUnitError`
is not caught and aborts the run (`none`). -/
def price_item (item : Ingredient) : Option Ingredient :=
  match check_special_cases item with
  | none => none
  | some item2 =>
    match convert item2.cost.quantity item2.cost.measure item2.measure with
    | Except.ok m =>
        some { item2 with price := some (item2.quantity / m * item2.cost.money) }
    | Except.error ConvError.dimMismatch => some item2
    | Except.error ConvError.undefinedUnit => none

/-- `calculate_recipe_prices(recipe)` (lines 147-158) over the recipe's
ingredient list; `none` models an uncaught exception aborting the run. -/
def calculate_recipe_prices : List Ingredient → Option (List Ingredient)
  | [] => some []
  | item :: rest =>
    match price_item item with
    | none => none
    | some item2 =>
      match calculate_recipe_prices rest with
      | none => none
      | some rest2 => some (item2 :: rest2)

/-- One output line of `print_recipe_costs`: either
`"<thing>: $<price>"` or `"Don't have price for <thing>"`. -/
inductive ReportLine : Type
  | priced (thing : String) (price : ℚ)
  | unpriced (thing : String)
deriving DecidableEq, Repr

/-- `print_recipe_costs(recipe)` (lines 161-170): the list of per-ingredient
report lines together with the printed total.  The source's
`if ingredient.price:` is Python truthiness: both `None` and `0.0` take the
`"Don't have price"` branch. -/
def print_recipe_costs : List Ingredient → List ReportLine × ℚ
  | [] => ([], 0)
  | ing :: rest =>
    let r := print_recipe_costs rest
    match ing.price with
    | some p =>
        if p ≠ 0 then (ReportLine.priced ing.thing p :: r.1, p + r.2)
        else (ReportLine.unpriced ing.thing :: r.1, r.2)
    | none => (ReportLine.unpriced ing.thing :: r.1, r.2)

/-! Concrete inputs used to instantiate the theorems. -/

/-- 3 cups of flour, purchased as 5 pounds for $2.19 (spec §8). -/
def flourEx : Ingredient :=
  { quantity := 3, measure := "cups", thing := "flour",
    cost := { money := 219/100, quantity := 5, measure := "pounds" }, price := none }

/-- 1 pound of flour used, purchased as 5 pounds for $2.19 (spec §8's
mass-purchased, mass-used apportionment example). -/
def poundEx : Ingredient :=
  { quantity := 1, measure := "pounds", thing := "flour",
    cost := { money := 219/100, quantity := 5, measure := "pounds" }, price := none }

/-- Mass-purchased but count-used: 2 eggs, purchased as 1 pound for $1.19. -/
def eggsEx : Ingredient :=
  { quantity := 2, measure := "each", thing := "eggs",
    cost := { money := 119/100, quantity := 1, measure := "pounds" }, price := none }

/-- An ingredient whose computed price is present and equal to zero. -/
def zeroPriceEx : Ingredient :=
  { quantity := 1, measure := "each", thing := "salt",
    cost := { money := 0, quantity := 1, measure := "each" }, price := some 0 }

/-- Volume-purchased, count-used: conversion fails with a
dimensionality error. -/
def badEx : Ingredient :=
  { quantity := 2, measure := "each", thing := "vanilla",
    cost := { money := 3, quantity := 1, measure := "cups" }, price := none }

/-- 1 egg of a dozen purchased for $2: prices normally. -/
def goodEx : Ingredient :=
  { quantity := 1, measure := "each", thing := "eggs",
    cost := { money := 2, quantity := 12, measure := "each" }, price := none }

/-- A bulk cost in ounces, for the density-heuristic rewrite. -/
def ouncesCost : Cost := { money := 1, quantity := 16, measure := "ounces" }

/-! Helper lemmas shared by the claim theorems. -/

/-- Successful `convert_mass_to_volume` comes from a successful conversion
to pounds and rewrites the cost in cups. -/
lemma cmtv_some (cost : Cost) (rate : ℚ) (c2 : Cost)
    (h : convert_mass_to_volume cost rate = some c2) :
    ∃ q, convert cost.quantity cost.measure "pounds" = Except.ok q ∧
      c2 = { cost with quantity := q * rate, measure := "cups" } := by
  unfold convert_mass_to_volume at h
  rcases hc : convert cost.quantity cost.measure "pounds" with e | q
  · rw [hc] at h
    simp at h
  · rw [hc] at h
    exact ⟨q, rfl, (Option.some.inj h).symm⟩

/-- `check_special_cases` only ever touches the cost's quantity and
measure: the usage quantity, usage unit, name, price and the money paid
are unchanged. -/
lemma csc_fields (item item2 : Ingredient)
    (h : check_special_cases item = some item2) :
    item2.quantity = item.quantity ∧ item2.measure = item.measure ∧
      item2.thing = item.thing ∧ item2.price = item.price ∧
      item2.cost.money = item.cost.money := by
  unfold check_special_cases at h
  split at h
  · exact absurd h (by simp)
  · split at h
    · split at h
      · exact absurd h (by simp)
      · split at h
        · obtain rfl := Option.some.inj h
          exact ⟨rfl, rfl, rfl, rfl, rfl⟩
        · split at h
          · obtain rfl := Option.some.inj h
            rename_i c hc
            obtain ⟨q, _, rfl⟩ := cmtv_some _ _ _ hc
            exact ⟨rfl, rfl, rfl, rfl, rfl⟩
          · exact absurd h (by simp)
    · obtain rfl := Option.some.inj h
      exact ⟨rfl, rfl, rfl, rfl, rfl⟩

/-- Every factor in the unit table is strictly positive. -/
lemma unitDef_factor_pos (u : String) (d : Dim) (f : ℚ)
    (h : unitDef u = some (d, f)) : 0 < f := by
  unfold unitDef at h
  split_ifs at h <;>
    simp only [Option.some.injEq, Prod.mk.injEq] at h <;>
    rcases h with ⟨-, h2⟩ <;> rw [← h2] <;> norm_num

/-- Every density rate produced by the rule table is strictly positive. -/
lemma lookup_rate_pos (name : String) : 0 < lookup_rate name := by
  simp only [lookup_rate]
  split_ifs <;> norm_num

/-- A successful unit conversion of a positive quantity is positive. -/
lemma convert_pos (q : ℚ) (u v : String) (b : ℚ) (hq : 0 < q)
    (h : convert q u v = Except.ok b) : 0 < b := by
  unfold convert at h
  split at h
  · rename_i d1 f1 d2 f2 h1 h2
    split at h
    · obtain rfl := Except.ok.inj h
      exact div_pos (mul_pos hq (unitDef_factor_pos u d1 f1 h1))
        (unitDef_factor_pos v d2 f2 h2)
    · exact absurd h (by simp)
  · exact absurd h (by simp)

/-- The density heuristic preserves strict positivity of the bulk
quantity. -/
lemma csc_quantity_pos (item item2 : Ingredient)
    (h : check_special_cases item = some item2)
    (hq : 0 < item.cost.quantity) : 0 < item2.cost.quantity := by
  unfold check_special_cases at h
  split at h
  · exact absurd h (by simp)
  · split at h
    · split at h
      · exact absurd h (by simp)
      · split at h
        · obtain rfl := Option.some.inj h
          exact hq
        · split at h
          · obtain rfl := Option.some.inj h
            rename_i c hc
            obtain ⟨p, hp, rfl⟩ := cmtv_some _ _ _ hc
            exact mul_pos (convert_pos _ _ _ _ hq hp) (lookup_rate_pos item.thing)
          · exact absurd h (by simp)
    · obtain rfl := Option.some.inj h
      exact hq

/-- `calculate_recipe_prices` processes the ingredients elementwise and
independently: position `j` of the output is exactly `price_item` of
position `j` of the input. -/
lemma calculate_elementwise (ings out : List Ingredient)
    (h : calculate_recipe_prices ings = some out) :
    ∀ j : Nat, (ings[j]?).bind price_item = out[j]? := by
  induction ings generalizing out with
  | nil =>
    obtain rfl := Option.some.inj h.symm
    intro j
    simp
  | cons item rest ih =>
    unfold calculate_recipe_prices at h
    split at h
    · exact absurd h (by simp)
    · rename_i item2 hitem
      split at h
      · exact absurd h (by simp)
      · rename_i rest2 hrest
        obtain rfl := Option.some.inj h.symm
        intro j
        cases j with
        | zero => simpa using hitem
        | succ j => simpa using ih rest2 hrest j

/-! The claim theorems. -/

/-- Claim C1: for the ingredient "flour" used as 3 cups with
Cost(money = 2.19, quantity = 5, measure = "pounds"), the apportionment
pipeline rewrites the bulk to 5 × 3.33 = 16.65 cups and sets the price to
3 / 16.65 × 2.19 = 73/185 ≈ 0.3945 dollars. -/
theorem c1_flour_end_to_end :
    ∃ out, price_item flourEx = some out ∧
      out.cost.measure = "cups" ∧ out.cost.quantity = 333/20 ∧
      out.price = some (73/185) ∧ |(73 : ℚ)/185 - 3945/10000| < 1/10000 := by
  have hl : lookup_rate "flour" = 333/100 := rfl
  refine ⟨_, rfl, rfl, ?_, ?_, ?_⟩
  · norm_num [flourEx, hl]
  · norm_num [flourEx, hl]
  · norm_num [abs]

/-- Claim C2: whenever the (possibly heuristic-rewritten) cost's unit
converts successfully to the ingredient's usage unit, the computed price
is `(quantity / bulk_in_usage_unit) * money`, with the usage quantity and
the money paid unchanged from the original ingredient. -/
theorem c2_price_formula (item item2 : Ingredient) (b : ℚ)
    (hcsc : check_special_cases item = some item2)
    (hconv : convert item2.cost.quantity item2.cost.measure item2.measure =
      Except.ok b) :
    price_item item =
        some { item2 with price := some (item2.quantity / b * item2.cost.money) } ∧
      item2.quantity = item.quantity ∧ item2.cost.money = item.cost.money := by
  obtain ⟨hq, -, -, -, hm⟩ := csc_fields item item2 hcsc
  refine ⟨?_, hq, hm⟩
  unfold price_item
  rw [hcsc]
  dsimp only
  rw [hconv]

/-- Witness for C2: 1 pound used out of 5 pounds purchased for $2.19 is
priced at 2.19 × (1/5) = $0.438. -/
theorem c2_price_formula_witness :
    price_item poundEx =
        some { poundEx with
          price := some (poundEx.quantity /
            (5 * (45359237/100000) / (45359237/100000)) * poundEx.cost.money) } ∧
      poundEx.quantity / (5 * (45359237/100000) / (45359237/100000)) *
          poundEx.cost.money = 219/500 :=
  ⟨(c2_price_formula poundEx poundEx _ rfl rfl).1, by norm_num [poundEx]⟩

/-- Claim C6: whenever the density heuristic rewrites a cost, the result
is measured in "cups" and its quantity is the original quantity converted
to pounds times the conversion rate; the money paid is untouched. -/
theorem c6_density_rewrite (cost : Cost) (rate : ℚ) (c2 : Cost)
    (h : convert_mass_to_volume cost rate = some c2) :
    ∃ q, convert cost.quantity cost.measure "pounds" = Except.ok q ∧
      c2.measure = "cups" ∧ c2.quantity = q * rate ∧ c2.money = cost.money := by
  obtain ⟨q, hq, rfl⟩ := cmtv_some cost rate c2 h
  exact ⟨q, hq, rfl, rfl, rfl⟩

/-- Witness for C6: a 16-ounce bulk cost with rate 2 cups/pound becomes a
cost of 16 oz → 1 lb → 2 cups. -/
theorem c6_density_rewrite_witness :
    (∃ q, convert ouncesCost.quantity ouncesCost.measure "pounds" = Except.ok q ∧
        ("cups" : String) = "cups" ∧
        (16 * (45359237/1600000) / (45359237/100000) * 2 : ℚ) = q * 2 ∧
        (1 : ℚ) = ouncesCost.money) ∧
      (16 * (45359237/1600000) / (45359237/100000) * 2 : ℚ) = 2 := by
  refine ⟨?_, by norm_num⟩
  obtain ⟨q, hq, h1, h2, h3⟩ := c6_density_rewrite ouncesCost 2
    { money := 1,
      quantity := 16 * (45359237/1600000) / (45359237/100000) * 2,
      measure := "cups" } rfl
  exact ⟨q, hq, rfl, h2, h3.symm ▸ rfl⟩

/-- A quantity in a unit of mass dimensionality always converts to
pounds. -/
lemma convert_ok_of_mass (q : ℚ) (u : String)
    (h : unitDim u = some Dim.mass) :
    ∃ r, convert q u "pounds" = Except.ok r := by
  rcases hu : unitDef u with - | ⟨d, f⟩
  · rw [unitDim, hu] at h
    simp at h
  · rw [unitDim, hu] at h
    obtain rfl : d = Dim.mass := by simpa using h
    have hp : unitDef "pounds" = some (Dim.mass, 45359237/100000) := rfl
    unfold convert
    rw [hu, hp]
    exact ⟨_, rfl⟩

/-- Counterexample to claim C3: for the mass-purchased, count-used
ingredient `eggsEx` (cost in pounds, used in "each") the heuristic does
not leave the cost unchanged — it rewrites it to cups. -/
theorem c3_counterexample :
    unitDim eggsEx.cost.measure = some Dim.mass ∧
      unitDim eggsEx.measure = some Dim.count ∧
      (check_special_cases eggsEx).map (fun i => i.cost.measure) = some "cups" ∧
      ¬ check_special_cases eggsEx = some eggsEx := by
  refine ⟨rfl, rfl, rfl, ?_⟩
  intro h
  have h2 : (check_special_cases eggsEx).map (fun i => i.cost.measure) =
      some "pounds" := by rw [h]; rfl
  have h3 : (check_special_cases eggsEx).map (fun i => i.cost.measure) =
      some "cups" := rfl
  rw [h2] at h3
  exact absurd (Option.some.inj h3) (by decide)

/-- Claim C3 as amended: the density heuristic fires if and only if the
cost's unit has mass dimensionality and the ingredient's usage unit has
any non-mass dimensionality (volume or count) — for every other pairing
the cost is left unchanged, but a mass-purchased, count-used ingredient
is still rewritten to cups. -/
theorem c3_amended (item : Ingredient) (dc di : Dim)
    (h1 : unitDim item.cost.measure = some dc)
    (h2 : unitDim item.measure = some di) :
    (¬(dc = Dim.mass ∧ di ≠ Dim.mass) → check_special_cases item = some item) ∧
      ((dc = Dim.mass ∧ di ≠ Dim.mass) →
        (check_special_cases item).map (fun i => i.cost.measure) = some "cups") := by
  unfold check_special_cases
  rw [h1]
  dsimp only
  by_cases hdc : dc = Dim.mass
  · subst hdc
    rw [if_pos rfl, h2]
    dsimp only
    by_cases hdi : di = Dim.mass
    · subst hdi
      rw [if_pos rfl]
      exact ⟨fun _ => rfl, fun hc => absurd rfl hc.2⟩
    · rw [if_neg hdi]
      obtain ⟨r, hr⟩ := convert_ok_of_mass item.cost.quantity item.cost.measure h1
      unfold convert_mass_to_volume
      rw [hr]
      exact ⟨fun hn => absurd ⟨rfl, hdi⟩ hn, fun _ => rfl⟩
  · rw [if_neg hdc]
    exact ⟨fun _ => rfl, fun hc => absurd hc.1 hdc⟩

/-- Witness for the amended C3: `eggsEx` (pounds bought, "each" used) is
rewritten to cups. -/
theorem c3_amended_witness :
    (check_special_cases eggsEx).map (fun i => i.cost.measure) = some "cups" :=
  (c3_amended eggsEx Dim.mass Dim.count rfl rfl).2 ⟨rfl, by decide⟩

/-- Counterexample to claim C7: the name "brown sugar flour" contains
"brown sugar", yet the lookup yields the flour rate 3.33, not 2.25,
because the flour rule is checked first. -/
theorem c7_counterexample :
    strContainsSub (normalize_name "brown sugar flour") "brown sugar" = true ∧
      lookup_rate "brown sugar flour" = 333/100 ∧ (333 : ℚ)/100 ≠ 225/100 := by
  refine ⟨by decide, rfl, by norm_num⟩

/-- Claim C7 as amended: every ingredient name whose normalized form
contains "brown sugar" but not "flour" gets rate 2.25, not the generic
sugar rate 2.0 — the rules are checked top-to-bottom (flour, butter,
brown sugar, sugar, cocoa, default) and the first match wins. -/
theorem c7_amended (name : String)
    (hbs : strContainsSub (normalize_name name) "brown sugar" = true)
    (hfl : strContainsSub (normalize_name name) "flour" = false) :
    lookup_rate name = 225/100 := by
  simp only [lookup_rate]
  rw [hfl]
  by_cases hb : normalize_name name = "butter"
  · rw [hb] at hbs
    exact absurd hbs (by decide)
  · simp only [Bool.false_eq_true, if_false, beq_iff_eq, if_neg hb, hbs, if_true]

/-- Witness for the amended C7: `lookup_rate "Brown Sugar" = 2.25`. -/
theorem c7_amended_witness :
    strContainsSub (normalize_name "Brown Sugar") "brown sugar" = true ∧
      strContainsSub (normalize_name "Brown Sugar") "flour" = false ∧
      lookup_rate "Brown Sugar" = 225/100 :=
  ⟨by decide, by decide, c7_amended "Brown Sugar" (by decide) (by decide)⟩

/-- Claim C8: the density rate lookup normalizes by lower-casing and
stripping whitespace before matching, so any two names with the same
normalized form get the same rate, and "Flour", " flour " and "FLOUR"
all get 3.33. -/
theorem c8_normalization :
    (∀ a b : String, normalize_name a = normalize_name b →
        lookup_rate a = lookup_rate b) ∧
      lookup_rate "Flour" = 333/100 ∧ lookup_rate " flour " = 333/100 ∧
      lookup_rate "FLOUR" = 333/100 := by
  refine ⟨fun a b h => ?_, rfl, rfl, rfl⟩
  simp only [lookup_rate, h]

/-- Witness for C8: "FLour" and "  flour" normalize identically, hence
get the same rate. -/
theorem c8_normalization_witness :
    lookup_rate "FLour" = lookup_rate "  flour" :=
  c8_normalization.1 "FLour" "  flour" (by decide)

/-- Ingredients realizing the spec's total-aggregation example
[0.44, 1.20, unpriced]. -/
def exA : Ingredient :=
  { quantity := 1, measure := "each", thing := "a",
    cost := { money := 0, quantity := 1, measure := "each" }, price := some (11/25) }

def exB : Ingredient :=
  { quantity := 1, measure := "each", thing := "b",
    cost := { money := 0, quantity := 1, measure := "each" }, price := some (6/5) }

def exC : Ingredient :=
  { quantity := 1, measure := "each", thing := "c",
    cost := { money := 0, quantity := 1, measure := "each" }, price := none }

/-- Counterexample to claim C4: `zeroPriceEx` has the present price 0,
yet the report flags it as "Don't have price" and not as priced, because
the source tests `if ingredient.price:` and `0.0` is falsy. -/
theorem c4_counterexample :
    zeroPriceEx.price = some 0 ∧
      print_recipe_costs [zeroPriceEx] = ([ReportLine.unpriced "salt"], 0) ∧
      ¬ (print_recipe_costs [zeroPriceEx]).1 = [ReportLine.priced "salt" 0] :=
  ⟨rfl, rfl, by decide⟩

/-- Claim C4 as amended: an ingredient is listed as priced (and its price
added to the total) if and only if its price is present and nonzero; an
absent price — and likewise a present price of exactly 0 — is flagged
with "Don't have price".  The total is the sum of the present nonzero
prices, and the spec's example [0.44, 1.20, unpriced] totals 1.64. -/
theorem c4_report (ings : List Ingredient) :
    (print_recipe_costs ings).1 = ings.map (fun ing =>
        match ing.price with
        | some p => if p ≠ 0 then ReportLine.priced ing.thing p
                    else ReportLine.unpriced ing.thing
        | none => ReportLine.unpriced ing.thing) ∧
      (print_recipe_costs ings).2 =
        ((ings.filterMap Ingredient.price).filter (fun p => p != 0)).sum ∧
      print_recipe_costs [exA, exB, exC] =
        ([ReportLine.priced "a" (11/25), ReportLine.priced "b" (6/5),
          ReportLine.unpriced "c"], 41/25) := by
  refine ⟨?_, ?_, ?_⟩
  · induction ings with
    | nil => rfl
    | cons ing rest ih =>
      simp only [print_recipe_costs, List.map_cons]
      rcases ing.price with - | p
      · simpa using ih
      · by_cases hp : p = 0
        · subst hp
          simpa using ih
        · simp only [if_pos hp, ih]
  · induction ings with
    | nil => rfl
    | cons ing rest ih =>
      simp only [print_recipe_costs, List.filterMap_cons]
      rcases ing.price with - | p
      · simpa using ih
      · by_cases hp : p = 0
        · subst hp
          simpa using ih
        · have hb : (p != 0) = true := by simpa using hp
          simp [List.filter_cons, hb, ih, if_pos hp]
  · have h1 : (11 : ℚ)/25 ≠ 0 := by norm_num
    have h2 : (6 : ℚ)/5 ≠ 0 := by norm_num
    simp only [print_recipe_costs, exA, exB, exC, if_pos h1, if_pos h2]
    norm_num

/-- Claim C5: when the conversion for one ingredient fails with a
dimensionality error, that ingredient comes out of the loop with its
price still unset, and every other ingredient of the recipe is still
processed exactly as it would be on its own. -/
theorem c5_failure_isolated (ings out : List Ingredient) (i : Nat)
    (item item2 : Ingredient)
    (hrun : calculate_recipe_prices ings = some out)
    (hi : ings[i]? = some item)
    (hnone : item.price = none)
    (hcsc : check_special_cases item = some item2)
    (hfail : convert item2.cost.quantity item2.cost.measure item2.measure =
      Except.error ConvError.dimMismatch) :
    out[i]? = some item2 ∧ item2.price = none ∧
      ∀ (j : Nat) (itm : Ingredient), ings[j]? = some itm → out[j]? = price_item itm := by
  have helem := calculate_elementwise ings out hrun
  have h0 : price_item item = some item2 := by
    unfold price_item
    rw [hcsc]
    dsimp only
    rw [hfail]
  refine ⟨?_, ?_, ?_⟩
  · have hj := helem i
    rw [hi] at hj
    rw [← hj, Option.some_bind, h0]
  · obtain ⟨-, -, -, hpr, -⟩ := csc_fields item item2 hcsc
    rw [hpr, hnone]
  · intro j itm hj
    have := helem j
    rw [hj, Option.some_bind] at this
    exact this.symm

/-- Witness for C5: in the recipe [badEx, goodEx], badEx's conversion
(cups to each) fails and it stays unpriced, while goodEx is still priced
as if alone. -/
theorem c5_failure_isolated_witness :
    ∃ out, calculate_recipe_prices [badEx, goodEx] = some out ∧
      out[0]? = some badEx ∧ badEx.price = none ∧
      (∀ (j : Nat) (itm : Ingredient), [badEx, goodEx][j]? = some itm →
        out[j]? = price_item itm) := by
  refine ⟨_, rfl, ?_⟩
  exact c5_failure_isolated [badEx, goodEx] _ 0 badEx badEx rfl rfl rfl rfl rfl

/-- Claim C9: the density-heuristic pass is idempotent — a second
application of `check_special_cases` to an already-processed ingredient
changes nothing, because after a rewrite the cost is in cups, which is
not a mass unit. -/
theorem c9_idempotent (item item2 : Ingredient)
    (h : check_special_cases item = some item2) :
    check_special_cases item2 = some item2 := by
  unfold check_special_cases at h
  split at h
  · exact absurd h (by simp)
  · rename_i dc heq
    split at h
    · rename_i hdc
      split at h
      · exact absurd h (by simp)
      · rename_i di heq2
        split at h
        · rename_i hdi
          obtain rfl := Option.some.inj h
          unfold check_special_cases
          rw [heq]
          dsimp only
          rw [if_pos hdc, heq2]
          dsimp only
          rw [if_pos hdi]
        · split at h
          · rename_i c hc
            obtain rfl := Option.some.inj h
            obtain ⟨q, -, rfl⟩ := cmtv_some _ _ _ hc
            unfold check_special_cases
            dsimp only
            rw [show unitDim "cups" = some Dim.volume from rfl]
            dsimp only
            rw [if_neg (by decide : ¬ Dim.volume = Dim.mass)]
          · exact absurd h (by simp)
    · rename_i hdc
      obtain rfl := Option.some.inj h
      unfold check_special_cases
      rw [heq]
      dsimp only
      rw [if_neg hdc]

/-- Witness for C9: applying the heuristic twice to `flourEx` equals
applying it once. -/
theorem c9_idempotent_witness :
    ∃ item2, check_special_cases flourEx = some item2 ∧
      check_special_cases item2 = some item2 := by
  refine ⟨_, rfl, ?_⟩
  exact c9_idempotent flourEx _ rfl

/-- Claim C10: with a strictly positive bulk quantity, the divisor
`smaller.magnitude` of the apportionment division is strictly positive
whenever the conversion succeeds — the heuristic and the conversion only
scale by positive factors, so the division cannot divide by zero. -/
theorem c10_divisor_pos (item item2 : Ingredient) (b : ℚ)
    (hq : 0 < item.cost.quantity)
    (hcsc : check_special_cases item = some item2)
    (hconv : convert item2.cost.quantity item2.cost.measure item2.measure =
      Except.ok b) :
    0 < b :=
  convert_pos _ _ _ _ (csc_quantity_pos item item2 hcsc hq) hconv

/-- Witness for C10: for `flourEx`, the converted bulk (16.65 cups) is
strictly positive. -/
theorem c10_divisor_pos_witness :
    ∃ item2 b, check_special_cases flourEx = some item2 ∧
      convert item2.cost.quantity item2.cost.measure item2.measure =
        Except.ok b ∧ 0 < b := by
  refine ⟨_, _, rfl, rfl, ?_⟩
  exact c10_divisor_pos flourEx _ _ (by norm_num [flourEx]) rfl rfl

end Frd

